import Mathlib

/-!
Shallow embedding of the Quizler quiz-server core (backend and backend-v2
iterations) for checking the specification's claims.

Conventions used throughout:
* Rust machine integers are modelled as `ℕ` with explicit reductions
  `% 2^32` where the source wraps or casts (release-mode semantics).
* Rust `f32` arithmetic is modelled exactly by the inductive type `F32`:
  a finite IEEE-754 binary32 value is carried as the rational it denotes,
  and every operation re-rounds its exact rational result to the binary32
  grid (round to nearest, ties to even), as the hardware does.
* Rust strings are modelled as their UTF-8 byte lists (`List ℕ`); `len()`
  is the byte length as in the source.  `str::trim` is modelled for ASCII
  whitespace, which covers every input appearing in the theorems below.
* `Instant`/`Duration` are modelled at millisecond resolution: operations
  that read the clock take the current time `now : ℕ` as an argument.
* Event delivery: the per-session sinks (`EventTarget`) are replaced by a
  log of `(recipient session id, event)` pairs returned by each operation,
  in emission order.
* The external profanity classifier (rustrict) is an opaque collaborator
  of the program; operations that consult it take it as a boolean oracle
  argument `censor`.
* The image map of a `GameConfig` is not modelled: no verified claim
  mentions images.
-/

set_option maxRecDepth 40000

namespace Quizler

/-! IEEE-754 binary32 (`f32`) emulation over exact rationals.  The four
Batteries rational operations are restored to their normal reducibility so
that concrete scores can be evaluated by `decide` (they are `irreducible`
only to keep `simp` from unfolding them). -/

attribute [local semireducible] Rat.add Rat.mul Rat.inv Rat.sub


/-- Values of Rust `f32`: NaN, signed infinity, or a finite value carried
as the exact rational it denotes. -/
inductive F32 where
  | nan : F32
  | inf (neg : Bool) : F32
  | fin (q : ℚ) : F32
deriving DecidableEq

/-- Round a rational to the nearest integer, ties to even (the IEEE-754
default rounding used by every Rust `f32` arithmetic operation). -/
def rne (q : ℚ) : ℤ :=
  let f := ⌊q⌋
  let r := q - f
  if r < 1/2 then f
  else if 1/2 < r then f + 1
  else if f % 2 = 0 then f else f + 1

/-- Fuel-driven floor base-2 logarithm.  Structural recursion on the fuel
keeps it kernel-evaluable; with fuel 600 it agrees with `Nat.log2` for
every `n < 2^600`, far beyond any numerator or denominator reachable in
the binary32 model (they are bounded near `2^(128+149)`). -/
def log2fuel : ℕ → ℕ → ℕ
  | 0, _ => 0
  | fuel + 1, n => if 2 ≤ n then log2fuel fuel (n / 2) + 1 else 0

/-- Floor base-2 logarithm of a natural number. -/
def natLog2 (n : ℕ) : ℕ := log2fuel 600 n

/-- Floor of the base-2 logarithm of a nonzero rational: the `e` with
`2^e ≤ |q| < 2^(e+1)`. -/
def ilog2 (q : ℚ) : ℤ :=
  let e0 : ℤ := (natLog2 q.num.natAbs : ℤ) - (natLog2 q.den : ℤ)
  if |q| < (2:ℚ) ^ e0 then e0 - 1 else e0

/-- Round an exact rational to the binary32 grid: nearest representable
value, ties to even, overflow to infinity, gradual underflow below
`2^(-126)`.  Finite results are returned as the exact rational they
denote. -/
def froundQ (q : ℚ) : F32 :=
  if q = 0 then .fin 0
  else if (2:ℚ) ^ (128:ℕ) - (2:ℚ) ^ (103:ℕ) ≤ |q| then .inf (q < 0)
  else
    let e := max (ilog2 q) (-126)
    let m := rne (q / (2:ℚ) ^ (e - 23))
    .fin ((m : ℚ) * (2:ℚ) ^ (e - 23))

/-- Rust `n as f32` for an unsigned integer `n` (rounds to nearest). -/
def F32.ofNat (n : ℕ) : F32 := froundQ n

/-- Binary32 subtraction. -/
def F32.sub : F32 → F32 → F32
  | .nan, _ => .nan
  | _, .nan => .nan
  | .inf a, .inf b => if a = b then .nan else .inf a
  | .inf a, .fin _ => .inf a
  | .fin _, .inf b => .inf (!b)
  | .fin a, .fin b => froundQ (a - b)

/-- Binary32 multiplication. -/
def F32.mul : F32 → F32 → F32
  | .nan, _ => .nan
  | _, .nan => .nan
  | .inf a, .inf b => .inf (a != b)
  | .inf a, .fin b => if b = 0 then .nan else .inf (a != decide (b < 0))
  | .fin a, .inf b => if a = 0 then .nan else .inf (decide (a < 0) != b)
  | .fin a, .fin b => froundQ (a * b)

/-- Binary32 division (a zero divisor is the source's `+0.0`). -/
def F32.div : F32 → F32 → F32
  | .nan, _ => .nan
  | _, .nan => .nan
  | .inf _, .inf _ => .nan
  | .inf a, .fin b => .inf (a != decide (b < 0))
  | .fin _, .inf _ => .fin 0
  | .fin a, .fin b =>
    if b = 0 then (if a = 0 then .nan else .inf (a < 0)) else froundQ (a / b)

/-- Rust `x as u32` for `x : f32`: truncation toward zero, saturating at
the bounds of `u32`; NaN casts to 0. -/
def F32.toU32 : F32 → ℕ
  | .nan => 0
  | .inf neg => if neg then 0 else 2 ^ 32 - 1
  | .fin q => if q < 0 then 0 else min (Int.toNat ⌊q⌋) (2 ^ 32 - 1)

/-- Rust `f32::round`: rounds half away from zero.  For every representable
finite input the resulting integer is itself representable, so no
re-rounding is needed. -/
def F32.roundHalfAway : F32 → F32
  | .nan => .nan
  | .inf n => .inf n
  | .fin q => .fin (if q < 0 then -(⌊-q + 1/2⌋ : ℤ) else (⌊q + 1/2⌋ : ℤ))

/-! Wrapping `u32` helpers (Rust release-mode arithmetic). -/

/-- Wrapping `u32` addition. -/
def u32add (a b : ℕ) : ℕ := (a + b) % 2 ^ 32

/-- Wrapping `u32` subtraction (arguments below `2^32`). -/
def u32sub (a b : ℕ) : ℕ := (2 ^ 32 + a - b) % 2 ^ 32

/-! Value types from `types.rs` (identical in both backend iterations except
where noted). -/

/-- Session identifiers (`SessionId`, a process-wide unique integer). -/
abbrev SessionId := ℕ

/-- Rust strings (`ImStr = Box<str>` and `String`) as UTF-8 byte lists. -/
abbrev RStr := List ℕ

/-- ASCII lowercasing of one byte, as `u8::to_ascii_lowercase`. -/
def to_ascii_lowercase (b : ℕ) : ℕ := if 65 ≤ b ∧ b ≤ 90 then b + 32 else b

/-- Rust `str::eq_ignore_ascii_case` at the byte level. -/
def eq_ignore_ascii_case (a b : RStr) : Bool :=
  a.map to_ascii_lowercase = b.map to_ascii_lowercase

/-- ASCII whitespace test for `str::trim` (space, tab, LF, FF, CR). -/
def is_ascii_whitespace (b : ℕ) : Bool :=
  b = 32 ∨ b = 9 ∨ b = 10 ∨ b = 12 ∨ b = 13

/-- Rust `str::trim`, modelled for ASCII whitespace. -/
def trim (s : RStr) : RStr :=
  ((s.dropWhile is_ascii_whitespace).reverse.dropWhile is_ascii_whitespace).reverse

/-- Error taxonomy (`ServerError`).  The backend-v2 iteration's enum lacks
`InvalidNameLength`; the other variants coincide. -/
inductive ServerError where
  | MalformedMessage
  | InvalidToken
  | InvalidNameLength
  | UsernameTaken
  | InappropriateName
  | NotJoinable
  | CapacityReached
  | UnknownPlayer
  | Unexpected
  | InvalidPermission
  | UnexpectedMessage
  | InvalidAnswer
deriving DecidableEq

/-- Name-filter levels (`NameFiltering`). -/
inductive NameFiltering where
  | None
  | Low
  | Medium
  | High
deriving DecidableEq

/-- Filter classes of the external rustrict classifier (`rustrict::Type`). -/
inductive FilterLevel where
  | SEVERE
  | MODERATE_OR_HIGHER
  | INAPPROPRIATE
deriving DecidableEq

/-- Mapping of filtering levels to rustrict classes (`NameFiltering::type_of`). -/
def NameFiltering.type_of : NameFiltering → Option FilterLevel
  | .Low => some .SEVERE
  | .Medium => some .MODERATE_OR_HIGHER
  | .High => some .INAPPROPRIATE
  | .None => none

/-- Host actions (`HostAction`). -/
inductive HostAction where
  | Next
  | Reset
deriving DecidableEq

/-- Removal reasons (`RemoveReason`). -/
inductive RemoveReason where
  | RemovedByHost
  | HostDisconnect
  | LostConnection
  | Disconnected
deriving DecidableEq

/-- One selectable answer of a Single/Multiple question (`AnswerValue`). -/
structure AnswerValue where
  value : RStr
  correct : Bool
deriving DecidableEq

/-- Question payloads (`QuestionData`). -/
inductive QuestionData where
  | Single (answers : List AnswerValue)
  | Multiple (answers : List AnswerValue) (correct_answers : ℕ)
  | TrueFalse (answer : Bool)
  | Typer (answers : List RStr) (ignore_case : Bool)
deriving DecidableEq

/-- Scores configuration of a question (`Scoring`; all fields `u32`). -/
structure Scoring where
  min_score : ℕ
  max_score : ℕ
  bonus_score : ℕ
deriving DecidableEq

/-- One quiz question (`Question`); the optional image reference is not
modelled (no verified claim mentions it).  `answer_time` is `u64`
milliseconds, `bonus_score_time` is `u32` milliseconds. -/
structure Question where
  data : QuestionData
  text : RStr
  answer_time : ℕ
  bonus_score_time : ℕ
  scoring : Scoring
deriving DecidableEq

instance : Inhabited Question := ⟨⟨.TrueFalse false, [], 0, 0, ⟨0, 0, 0⟩⟩⟩

/-- Client-submitted answers (`Answer`). -/
inductive Answer where
  | Single (answer : ℕ)
  | Multiple (answers : List ℕ)
  | TrueFalse (answer : Bool)
  | Typer (answer : RStr)
deriving DecidableEq

/-- Rust `Answer::is_valid`: shape agreement with the question data. -/
def Answer.is_valid : Answer → QuestionData → Bool
  | .Single _, .Single _ => true
  | .Multiple _, .Multiple _ _ => true
  | .TrueFalse _, .TrueFalse _ => true
  | .Typer _, .Typer _ _ => true
  | _, _ => false

/-- Recorded answer data (`AnswerData`); `elapsed` is the `Duration` since
the question started, in milliseconds. -/
structure AnswerData where
  elapsed : ℕ
  answer : Answer
deriving DecidableEq

/-- Scores produced by marking (`Score`; all payloads `u32`). -/
inductive Score where
  | Correct (value : ℕ)
  | Incorrect
  | Partial (value : ℕ) (count : ℕ) (total : ℕ)
deriving DecidableEq

/-- Rust `Score::value`. -/
def Score.value : Score → ℕ
  | .Correct v => v
  | .Incorrect => 0
  | .Partial v _ _ => v

/-! Marking (`PlayerAnswer` in `game.rs`; `mark_impl` of the backend
iteration and `get_score` of backend-v2 are the same function, the latter
with the four helpers inlined). -/

/-- One slot of a player's per-question answer store (`PlayerAnswer`). -/
structure PlayerAnswer where
  data : Option AnswerData := none
  score : Option Score := none
deriving DecidableEq

instance : Inhabited PlayerAnswer := ⟨{}⟩

/-- Rust `PlayerAnswer::mark_single`. -/
def mark_single (answer : ℕ) (answers : List AnswerValue) (base_score : ℕ) : Score :=
  let is_valid := ((answers.get? answer).map (fun v => v.correct)).getD false
  if is_valid then .Correct base_score else .Incorrect

/-- Rust `PlayerAnswer::mark_multiple`.  The counts are `usize` and are
cast `as u32` into the `Partial` payload. -/
def mark_multiple (indexes : List ℕ) (answers : List AnswerValue) (base_score : ℕ) : Score :=
  let count_answers := indexes.length
  let count_expected := (answers.filter (fun v => v.correct)).length
  if count_answers < 1 ∨ count_answers > count_expected then .Incorrect
  else
    let count_correct := ((indexes.filterMap answers.get?).filter (fun v => v.correct)).length
    if count_correct < 1 then .Incorrect
    else if count_correct = count_expected then .Correct base_score
    else
      let percent := F32.div (F32.ofNat count_correct) (F32.ofNat count_expected)
      let score := (F32.mul (F32.ofNat base_score) percent).roundHalfAway.toU32
      .Partial score (count_correct % 2 ^ 32) (count_expected % 2 ^ 32)

/-- Rust `PlayerAnswer::mark_bool`. -/
def mark_bool (answer actual : Bool) (base_score : ℕ) : Score :=
  if answer = actual then .Correct base_score else .Incorrect

/-- Rust `PlayerAnswer::mark_typer`. -/
def mark_typer (answer : RStr) (answers : List RStr) (ignore_case : Bool)
    (base_score : ℕ) : Score :=
  let answer := trim answer
  let correct :=
    if ignore_case then answers.any (fun v => eq_ignore_ascii_case answer v)
    else answers.any (fun v => answer = v)
  if correct then .Correct base_score else .Incorrect

/-- Rust `PlayerAnswer::mark_impl` (= backend-v2 `PlayerAnswer::get_score`):
the scoring function.  `elapsed.as_millis() as u32` wraps; the base score
is computed in `f32` and cast `as u32` (saturating truncation); `u32`
additions wrap in release mode. -/
def mark_impl (pa : PlayerAnswer) (question : Question) : Score :=
  match pa.data with
  | none => .Incorrect
  | some answer =>
    let elapsed_ms := answer.elapsed % 2 ^ 32
    let is_bonus := elapsed_ms ≤ question.bonus_score_time
    let answer_time_percent :=
      F32.sub (.fin 1) (F32.div (F32.ofNat elapsed_ms) (F32.ofNat question.answer_time))
    let scoring := question.scoring
    let base_score :=
      u32add scoring.min_score
        ((F32.mul (F32.ofNat (u32sub scoring.max_score scoring.min_score))
            answer_time_percent).toU32)
    let base_score := if is_bonus then u32add base_score scoring.bonus_score else base_score
    match answer.answer, question.data with
    | .Single a, .Single answers => mark_single a answers base_score
    | .Multiple idx, .Multiple answers _ => mark_multiple idx answers base_score
    | .TrueFalse a, .TrueFalse actual => mark_bool a actual base_score
    | .Typer a, .Typer answers ic => mark_typer a answers ic base_score
    | _, _ => .Incorrect

/-- Rust `PlayerAnswer::mark`: stores and returns the computed score. -/
def PlayerAnswer.mark (pa : PlayerAnswer) (question : Question) : PlayerAnswer × Score :=
  let s := mark_impl pa question
  ({ pa with score := some s }, s)

/-! Game tokens (`GameToken` in `types.rs`; the same code appears in the
backend iteration's `games.rs`). -/

/-- Charset of game tokens: the bytes of `b"ABCDEFGHIJKLMNOPQRSTUVWXYZ0123456789"`. -/
def CHARSET : List ℕ :=
  [65, 66, 67, 68, 69, 70, 71, 72, 73, 74, 75, 76, 77, 78, 79, 80, 81, 82,
   83, 84, 85, 86, 87, 88, 89, 90, 48, 49, 50, 51, 52, 53, 54, 55, 56, 57]

/-- Five-byte game codes (`GameToken([u8; 5])`). -/
structure GameToken where
  val : List ℕ
deriving DecidableEq

/-- Token length (`GameToken::LENGTH`). -/
def GameToken.LENGTH : ℕ := 5

/-- Rust `GameToken::from_str`: length check, then charset check. -/
def GameToken.from_str (s : RStr) : Except ServerError GameToken :=
  if s.length ≠ GameToken.LENGTH then .error .InvalidToken
  else if s.any (fun b => b ∉ CHARSET) then .error .InvalidToken
  else .ok ⟨s⟩

/-- Rust `GameToken::as_ref` (also `Display` and `Serialize`): the token's
textual rendering is exactly its bytes. -/
def GameToken.as_ref (t : GameToken) : RStr := t.val

/-! The game state machine (`game.rs`).  Both iterations agree on every
operation modelled here except `join` (see `Game.join` vs `Game.try_join`);
`stop` follows the backend iteration (v2 differs only in the host's kick
reason). -/

/-- Game lifecycle states (`GameState`). -/
inductive GameState where
  | Lobby
  | Starting
  | AwaitingReady
  | PreQuestion
  | AwaitingAnswers
  | Marked
  | Finished
  | Stopped
deriving DecidableEq

/-- Events sent to sessions (`ServerEvent` in `msg.rs`). -/
inductive ServerEvent where
  | PlayerData (id : SessionId) (name : RStr)
  | GameState (state : GameState)
  | Timer (value : ℕ)
  | Question (question : Question)
  | Scores (scores : List (SessionId × ℕ))
  | Score (score : Score)
  | Kicked (id : SessionId) (reason : RemoveReason)
deriving DecidableEq

/-- An emission log: `(recipient session id, event)` in emission order. -/
abbrev Sends := List (SessionId × ServerEvent)

/-- Game configuration (`GameConfig`); the image map is not modelled. -/
structure GameConfig where
  name : RStr
  text : RStr
  max_players : ℕ
  filtering : NameFiltering
  questions : List Question
deriving DecidableEq

/-- The host's session data (`HostSession`), without its event sink. -/
structure HostSession where
  id : SessionId
  ready : Bool
deriving DecidableEq

/-- One player's session data (`PlayerSession`), without its event sink.
`answers` models `PlayerAnswers` (fixed length = number of questions);
`score` is the running `u32` total. -/
structure PlayerSession where
  id : SessionId
  ready : Bool
  name : RStr
  answers : List PlayerAnswer
  score : ℕ
deriving DecidableEq

instance : Inhabited PlayerSession := ⟨⟨0, false, [], [], 0⟩⟩

/-- The per-quiz game (`Game`).  `task_handle` records whether a delayed
task is pending (the `AbortHandle` itself is external); `start_time` is the
per-question start instant in milliseconds. -/
structure Game where
  token : GameToken
  host : HostSession
  players : List PlayerSession
  config : GameConfig
  state : GameState
  question_index : ℕ
  task_handle : Bool
  start_time : ℕ
deriving DecidableEq

/-- Rust `Game::new`. -/
def Game.new (token : GameToken) (host_id : SessionId) (config : GameConfig)
    (now : ℕ) : Game :=
  { token := token,
    host := ⟨host_id, false⟩,
    players := [],
    config := config,
    state := .Lobby,
    question_index := 0,
    task_handle := false,
    start_time := now }

/-- Rust `Game::send_all`: one shared event to every player, then the host. -/
def Game.send_all (g : Game) (e : ServerEvent) : Sends :=
  g.players.map (fun p => (p.id, e)) ++ [(g.host.id, e)]

/-- Rust `Game::set_state`: assign the state and broadcast it. -/
def Game.set_state (g : Game) (s : GameState) : Game × Sends :=
  let g := { g with state := s }
  (g, g.send_all (.GameState s))

/-- Rust `Game::timed_next_state`: arm the delayed task (which later runs
`next_state`; that run is modelled as a separate `next_state` step) and
broadcast the timer duration (`as_millis() as u32`). -/
def Game.timed_next_state (g : Game) (duration_ms : ℕ) : Game × Sends :=
  let g := { g with task_handle := true }
  (g, g.send_all (.Timer (duration_ms % 2 ^ 32)))

/-- Rust `Game::question`: clear all ready flags, send the current question,
enter `AwaitingReady`. -/
def Game.question (g : Game) : Game × Sends :=
  let g :=
    { g with
      players := g.players.map (fun (p : PlayerSession) => { p with ready := false }),
      host := { g.host with ready := false } }
  let q := g.config.questions.getD g.question_index default
  let s1 := g.send_all (.Question q)
  let (g2, s2) := g.set_state .AwaitingReady
  (g2, s1 ++ s2)

/-- The per-player closure of `Game::mark_answers`: mark the stored answer
for the current question (index `qi`), add the score value to the player's
`u32` total, and yield the updated player and the score. -/
def mark_player (question : Question) (qi : ℕ) (p : PlayerSession) :
    PlayerSession × Score :=
  let pa := p.answers.getD qi default
  let (pa2, score) := pa.mark question
  ({ p with
      answers := p.answers.set qi pa2,
      score := u32add p.score score.value }, score)

/-- Rust `Game::mark_answers`: mark each player's stored answer for the
current question, add the score value to the player's total, send the
player its `Score`, broadcast the totals, enter `Marked`.  (Out-of-range
indexing cannot occur for reachable games, see the question-index
invariant; it is modelled by defaults where the source would panic.) -/
def Game.mark_answers (g : Game) : Game × Sends :=
  let question := g.config.questions.getD g.question_index default
  let results := g.players.map (mark_player question g.question_index)
  let players2 := results.map (fun r => r.1)
  let scoreSends := results.map (fun r => (r.1.id, ServerEvent.Score r.2))
  let scores := results.map (fun r => (r.1.id, r.1.score))
  let g1 := { g with players := players2 }
  let s2 := g1.send_all (.Scores scores)
  let (g2, s3) := g1.set_state .Marked
  (g2, scoreSends ++ s2 ++ s3)

/-- Rust `Game::reset_completely`: cancel any pending task, reset the
question index, every player's answers and score, and go to `Lobby`. -/
def Game.reset_completely (g : Game) : Game × Sends :=
  let g :=
    { g with
      task_handle := false,
      question_index := 0,
      players := g.players.map (fun (p : PlayerSession) =>
        { p with answers := p.answers.map (fun _ => ({} : PlayerAnswer)), score := 0 }) }
  g.set_state .Lobby

/-- Rust `Game::next_state`: cancel any pending task, then advance by the
current state.  `now` is the clock reading used when entering
`AwaitingAnswers`. -/
def Game.next_state (now : ℕ) (g : Game) : Game × Sends :=
  let g := { g with task_handle := false }
  match g.state with
  | .Lobby =>
    let (g1, s1) := g.set_state .Starting
    let (g2, s2) := g1.timed_next_state 5000
    (g2, s1 ++ s2)
  | .Starting => g.question
  | .AwaitingReady =>
    let (g1, s1) := g.set_state .PreQuestion
    let (g2, s2) := g1.timed_next_state 5000
    (g2, s1 ++ s2)
  | .PreQuestion =>
    let (g1, s1) := g.set_state .AwaitingAnswers
    let g2 := { g1 with start_time := now }
    let q := g2.config.questions.getD g2.question_index default
    let (g3, s3) := g2.timed_next_state q.answer_time
    (g3, s1 ++ s3)
  | .AwaitingAnswers => g.mark_answers
  | .Marked =>
    if g.question_index + 1 ≥ g.config.questions.length then g.set_state .Finished
    else { g with question_index := g.question_index + 1 }.question
  | .Finished => g.reset_completely
  | .Stopped => (g, [])

/-- Rust `Game::update_ready`: in `AwaitingReady`, advance once the host
and every player are ready; otherwise do nothing. -/
def Game.update_ready (now : ℕ) (g : Game) : Game × Sends :=
  if g.state ≠ .AwaitingReady then (g, [])
  else
    let all_ready := g.players.all (fun p => p.ready) && g.host.ready
    if !all_ready then (g, [])
    else g.next_state now

/-- Set the ready flag of the first player whose id matches (the source's
`iter_mut().find`). -/
def set_first_ready (id : SessionId) : List PlayerSession → List PlayerSession
  | [] => []
  | p :: ps =>
    if p.id = id then { p with ready := true } :: ps
    else p :: set_first_ready id ps

/-- The flag update performed by `Game::ready` before `update_ready`. -/
def Game.set_ready_flag (id : SessionId) (g : Game) : Game :=
  if id = g.host.id then { g with host := { g.host with ready := true } }
  else { g with players := set_first_ready id g.players }

/-- Rust `Game::ready`. -/
def Game.ready (now : ℕ) (id : SessionId) (g : Game) : Game × Sends :=
  (g.set_ready_flag id).update_ready now

/-- Check of the name filter (`self.config.filtering.type_of()` followed by
`name.is(filter_type)`); `censor` is the external rustrict oracle. -/
def name_censored (censor : RStr → FilterLevel → Bool) (filtering : NameFiltering)
    (name : RStr) : Bool :=
  match filtering.type_of with
  | some ft => censor name ft
  | none => false

/-- The join notifications: for each existing player, the joiner's
`PlayerData` to that player and that player's `PlayerData` to the joiner
(in the source's interleaved order), then the joiner's `PlayerData` to the
host. -/
def join_sends (g : Game) (id : SessionId) (name : RStr) : Sends :=
  (g.players.flatMap (fun p =>
    [(p.id, ServerEvent.PlayerData id name), (id, ServerEvent.PlayerData p.id p.name)]))
    ++ [(g.host.id, ServerEvent.PlayerData id name)]

/-- Rust `Game::join` of the backend iteration: state must be `Lobby`,
`Starting` or `Stopped` (the source's `matches!` literally lists all
three), then trim, length 1..=30, name filter, capacity, taken name; on
success the player is appended and everyone is notified. -/
def Game.join (censor : RStr → FilterLevel → Bool) (id : SessionId) (name : RStr)
    (g : Game) : Game × Sends × Except ServerError (GameToken × GameConfig) :=
  if ¬ (g.state = .Lobby ∨ g.state = .Starting ∨ g.state = .Stopped) then
    (g, [], .error .NotJoinable)
  else
    let name := trim name
    if ¬ (1 ≤ name.length ∧ name.length ≤ 30) then (g, [], .error .InvalidNameLength)
    else if name_censored censor g.config.filtering name then
      (g, [], .error .InappropriateName)
    else if g.config.max_players ≤ g.players.length then (g, [], .error .CapacityReached)
    else if g.players.any (fun p => eq_ignore_ascii_case p.name name) then
      (g, [], .error .UsernameTaken)
    else
      let game_player : PlayerSession :=
        { id := id, ready := false, name := name,
          answers := List.replicate g.config.questions.length {}, score := 0 }
      let sends := join_sends g id name
      ({ g with players := g.players ++ [game_player] }, sends, .ok (g.token, g.config))

/-- Rust `Game::try_join` of the backend-v2 iteration: trim, then name
filter, then state must be `Lobby` or `Starting`, then capacity and taken
name.  This iteration has no name-length check at all. -/
def Game.try_join (censor : RStr → FilterLevel → Bool) (id : SessionId) (name : RStr)
    (g : Game) : Game × Sends × Except ServerError (GameToken × GameConfig) :=
  let name := trim name
  if name_censored censor g.config.filtering name then (g, [], .error .InappropriateName)
  else if ¬ (g.state = .Lobby ∨ g.state = .Starting) then (g, [], .error .NotJoinable)
  else if g.config.max_players ≤ g.players.length then (g, [], .error .CapacityReached)
  else if g.players.any (fun p => eq_ignore_ascii_case p.name name) then
    (g, [], .error .UsernameTaken)
  else
    let game_player : PlayerSession :=
      { id := id, ready := false, name := name,
        answers := List.replicate g.config.questions.length {}, score := 0 }
    let sends := join_sends g id name
    ({ g with players := g.players ++ [game_player] }, sends, .ok (g.token, g.config))

/-- Rust `Game::answer` (identical in both iterations): reject unless in
`AwaitingAnswers`; find the player, validate the answer shape, record
`{elapsed, answer}` at the current question index, and advance once every
player has answered. -/
def Game.answer (now : ℕ) (id : SessionId) (answer : Answer) (g : Game) :
    Game × Sends × Except ServerError Unit :=
  let elapsed := now - g.start_time
  if g.state ≠ .AwaitingAnswers then (g, [], .error .UnexpectedMessage)
  else
    let question := g.config.questions.getD g.question_index default
    match g.players.findIdx? (fun p => p.id = id) with
    | none => (g, [], .error .UnknownPlayer)
    | some i =>
      if ¬ answer.is_valid question.data then (g, [], .error .InvalidAnswer)
      else
        let p := g.players.getD i default
        let pa := p.answers.getD g.question_index default
        let p2 :=
          { p with answers :=
              p.answers.set g.question_index { pa with data := some ⟨elapsed, answer⟩ } }
        let g1 := { g with players := g.players.set i p2 }
        let all_answered := g1.players.all (fun p =>
          ((p.answers.getD g1.question_index default).data).isSome)
        if all_answered then
          let (g2, s) := g1.next_state now
          (g2, s, .ok ())
        else (g1, [], .ok ())

/-- Rust `Game::host_action`. -/
def Game.host_action (now : ℕ) (id : SessionId) (action : HostAction) (g : Game) :
    Game × Sends × Except ServerError Unit :=
  if g.host.id ≠ id then (g, [], .error .InvalidPermission)
  else
    match action with
    | .Reset => let (g1, s) := g.reset_completely; (g1, s, .ok ())
    | .Next => let (g1, s) := g.next_state now; (g1, s, .ok ())

/-- Rust `Game::stop` (backend iteration): if not already stopped, kick
every player with `HostDisconnect` and the host with `Disconnected`, and
enter `Stopped`.  The registry removal it spawns is external to the game
state.  (Backend-v2 differs only in sending the host `HostDisconnect`.) -/
def Game.stop (g : Game) : Game × Sends :=
  if g.state = .Stopped then (g, [])
  else
    let s1 := g.players.map (fun p => (p.id, ServerEvent.Kicked p.id .HostDisconnect))
    let s2 := [(g.host.id, ServerEvent.Kicked g.host.id RemoveReason.Disconnected)]
    ({ g with state := .Stopped }, s1 ++ s2)

/-- Rust `Game::remove_player` (identical in both iterations; backend-v2
factors the tail into `on_remove`). -/
def Game.remove_player (now : ℕ) (id target_id : SessionId) (reason : RemoveReason)
    (g : Game) : Game × Sends × Except ServerError Unit :=
  if target_id ≠ id ∧ g.host.id ≠ id then (g, [], .error .InvalidPermission)
  else if target_id = g.host.id then
    let (g1, s) := g.stop
    (g1, s, .ok ())
  else
    match g.players.findIdx? (fun p => p.id = target_id) with
    | none => (g, [], .error .UnknownPlayer)
    | some index =>
      let reason := if reason = .RemovedByHost ∧ id ≠ g.host.id then .Disconnected else reason
      let kicks := g.send_all (.Kicked target_id reason)
      let g1 := { g with players := g.players.eraseIdx index }
      let (g2, s2) := g1.update_ready now
      if g2.state ≠ .Finished ∧ g2.players = [] then
        let (g3, s3) := g2.reset_completely
        (g3, kicks ++ s2 ++ s3, .ok ())
      else (g2, kicks ++ s2, .ok ())

/-! The game registry (`games.rs`).  Only the prepared-quiz pool and its
expiry are modelled: token allocation is randomised and game handles are
shared references, both external to the pure pool state.  The two
iterations agree on the expiry constants. -/

/-- Sweep interval (`PREPARE_CHECK_INTERVAL`, 5 minutes) in milliseconds. -/
def PREPARE_CHECK_INTERVAL : ℕ := 300000

/-- Expiry age (`GAME_EXPIRY_TIME`, `Duration::from_secs(60 * 20)`) in
milliseconds. -/
def GAME_EXPIRY_TIME : ℕ := 1200000

/-- One prepared quiz (`PreparingGame`); `created` in milliseconds. -/
structure PreparingGame where
  config : GameConfig
  created : ℕ
deriving DecidableEq

/-- The prepared pool: the `preparing: HashMap<Uuid, PreparingGame>` as an
association list (UUIDs modelled as ℕ). -/
abbrev PreparedPool := List (ℕ × PreparingGame)

/-- The sweeper body (the `retain` closure run at each tick): keep exactly
the entries whose age `now − created` is below `GAME_EXPIRY_TIME`. -/
def sweep (now : ℕ) (preparing : PreparedPool) : PreparedPool :=
  preparing.filter (fun e => now - e.2.created < GAME_EXPIRY_TIME)

/-- Rust `Games::take_prepare` (the `preparing.remove(&id)` of both
iterations): look up and remove the entry. -/
def take_prepare (id : ℕ) (preparing : PreparedPool) :
    Option PreparingGame × PreparedPool :=
  match preparing.find? (fun e => e.1 = id) with
  | none => (none, preparing)
  | some e => (some e.2, preparing.filter (fun x => x.1 ≠ id))

/-- Rust `Games::initialize` restricted to the pool: consuming an absent
(for instance expired) uuid yields `InvalidToken`; a present one succeeds
with the prepared entry (token allocation and game construction follow in
the source). -/
def Games.initialize_prepared (uuid : ℕ) (preparing : PreparedPool) :
    Except ServerError PreparingGame × PreparedPool :=
  match take_prepare uuid preparing with
  | (none, l) => (.error .InvalidToken, l)
  | (some p, l) => (.ok p, l)

deriving instance DecidableEq for Except

/-! Concrete fixtures used by witnesses and counterexamples. -/

/-- A one-question True/False configuration (filtering off, capacity 1). -/
def cfg1 : GameConfig :=
  { name := [81], text := [], max_players := 1, filtering := .None,
    questions := [⟨.TrueFalse true, [81], 10000, 1000, ⟨100, 1000, 200⟩⟩] }

/-- A censor oracle that flags nothing (rustrict on ordinary names). -/
def noCensor : RStr → FilterLevel → Bool := fun _ _ => false

/-- A fresh game over `cfg1` with host session 0 (state `Lobby`). -/
def gLobby : Game := Game.new ⟨[65, 65, 65, 65, 65]⟩ 0 cfg1 0

/-! Claim C4. -/

/-- C4 (confirmed): an `answer` call made while the game state is not
`AwaitingAnswers` returns the `UnexpectedMessage` error, emits nothing,
and leaves the whole game value — state, players, recorded answers,
scores, question index — unchanged. -/
theorem answer_outside_awaiting_answers_rejected
    (g : Game) (now : ℕ) (id : SessionId) (a : Answer)
    (h : g.state ≠ .AwaitingAnswers) :
    g.answer now id a = (g, [], .error .UnexpectedMessage) := by
  unfold Game.answer
  simp [h]

/-- Witness for C4: a concrete `answer` call in the lobby. -/
theorem answer_outside_awaiting_answers_rejected_witness :
    gLobby.state ≠ .AwaitingAnswers
    ∧ gLobby.answer 5 1 (.TrueFalse true) = (gLobby, [], .error .UnexpectedMessage) :=
  ⟨by decide, answer_outside_awaiting_answers_rejected gLobby 5 1 (.TrueFalse true) (by decide)⟩

/-! Claim C9. -/

/-- C9 (confirmed): parsing the textual rendering of any valid token (5
bytes over the charset) returns the token itself, and `from_str` returns
the `InvalidToken` error exactly for inputs of the wrong length or with a
byte outside the charset. -/
theorem token_parse_roundtrip (t : GameToken) (s : RStr)
    (hlen : t.val.length = 5) (hchars : ∀ b ∈ t.val, b ∈ CHARSET) :
    GameToken.from_str t.as_ref = .ok t
  ∧ (GameToken.from_str s = .error .InvalidToken ↔
      s.length ≠ 5 ∨ ∃ b ∈ s, b ∉ CHARSET) := by
  constructor
  · unfold GameToken.from_str GameToken.as_ref
    have hany : (t.val.any fun b => decide (b ∉ CHARSET)) = false := by
      rw [List.any_eq_false]
      intro b hb
      simp [hchars b hb]
    simp only [GameToken.LENGTH, hlen, hany, ne_eq, not_true_eq_false, if_false,
      Bool.false_eq_true, reduceIte]
  · unfold GameToken.from_str
    rcases eq_or_ne s.length 5 with hl | hl
    · rw [if_neg (by simp [hl, GameToken.LENGTH])]
      by_cases ha : (s.any fun b => decide (b ∉ CHARSET)) = true
      · rw [if_pos ha]
        rw [List.any_eq_true] at ha
        rcases ha with ⟨b, hb, hnb⟩
        simp only [decide_eq_true_eq] at hnb
        simp only [eq_self_iff_true, true_iff]
        exact Or.inr ⟨b, hb, hnb⟩
      · rw [if_neg ha]
        rw [Bool.not_eq_true, List.any_eq_false] at ha
        constructor
        · intro hcon
          exact absurd hcon (by simp)
        · intro hcon
          rcases hcon with hbad | ⟨b, hb, hnb⟩
          · exact absurd hl hbad
          · have := ha b hb
            simp only [decide_eq_true_eq] at this
            exact absurd hnb this
    · rw [if_pos (by simpa [GameToken.LENGTH] using hl)]
      simp only [eq_self_iff_true, true_iff]
      exact Or.inl hl

/-- Witness for C9: round trip of the concrete token `ABC12`, and the
error characterisation applied to the one-byte string `@`. -/
theorem token_parse_roundtrip_witness :
    GameToken.from_str (GameToken.as_ref ⟨[65, 66, 67, 49, 50]⟩) = .ok ⟨[65, 66, 67, 49, 50]⟩
  ∧ (GameToken.from_str [64] = .error .InvalidToken ↔
      ([64] : RStr).length ≠ 5 ∨ ∃ b ∈ ([64] : RStr), b ∉ CHARSET) :=
  token_parse_roundtrip ⟨[65, 66, 67, 49, 50]⟩ [64] (by decide) (by decide)

/-! Claim C3.  The backend iteration's `Game::join` admits `Stopped` in its
state check (`matches!(self.state, Lobby | Starting | Stopped)`), so a
player can join a stopped game, contradicting the claim (and the spec's
`Stopped ⇒ no inbound mutations`); backend-v2's `try_join` admits exactly
`Lobby | Starting`. -/

/-- The fresh game over `cfg1`, forced into the `Stopped` state. -/
def gStopped : Game := { gLobby with state := .Stopped }

/-- C3 (code bug, backend iteration): a `join` on a game in state `Stopped`
with the name `bob` succeeds — the player is appended and the call returns
`Ok` — where the claim (and the spec) demand the `NotJoinable` error and an
unchanged player list. -/
theorem join_accepts_stopped_game :
    gStopped.state = .Stopped
  ∧ (gStopped.join noCensor 1 [98, 111, 98]).1.players.length = 1
  ∧ (gStopped.join noCensor 1 [98, 111, 98]).2.2 = .ok (gStopped.token, gStopped.config) := by
  refine ⟨rfl, ?_, ?_⟩ <;> decide

/-! Claim C8.  The backend iteration's `join` enforces trimmed length
1..=30 with `InvalidNameLength`; backend-v2's `try_join` has no length
check at all (its `ServerError` does not even carry `InvalidNameLength`),
so the empty name joins successfully. -/

/-- C8 (code bug, backend-v2 iteration): `try_join` with the empty name (length
0 after trim) succeeds and appends a player, where the claim demands the
`InvalidNameLength` error and no new player.  The backend iteration's
`join` does enforce the 1..=30 bound, shown by the two error conjuncts. -/
theorem try_join_accepts_empty_name :
    (trim []).length = 0
  ∧ (gLobby.try_join noCensor 1 []).1.players.length = 1
  ∧ (gLobby.try_join noCensor 1 []).2.2 = .ok (gLobby.token, gLobby.config)
  ∧ (gLobby.join noCensor 1 []).2.2 = .error .InvalidNameLength
  ∧ (gLobby.join noCensor 1 (List.replicate 31 97)).2.2 = .error .InvalidNameLength := by
  refine ⟨rfl, ?_, ?_, ?_, ?_⟩ <;> decide

/-! Claim C7.  Both iterations' sweepers use `GAME_EXPIRY_TIME =
Duration::from_secs(60 * 20)` — twenty minutes, not the ten of the claim —
so a ten-minute-old prepared quiz survives the sweep and can still be
initialised. -/

/-- A prepared quiz created at time 0 over `cfg1`. -/
def prepared0 : PreparingGame := ⟨cfg1, 0⟩

/-- C7 (counterexample): at `t₀ + 11 min` the sweeper keeps the entry
prepared at `t₀` (its age, at least the claimed 10-minute bound, is below
the code's 20-minute bound) and `initialize` still succeeds instead of
returning `InvalidToken`. -/
theorem sweeper_keeps_eleven_minute_old_entry :
    600000 ≤ 660000 - prepared0.created
  ∧ sweep 660000 [(7, prepared0)] = [(7, prepared0)]
  ∧ (Games.initialize_prepared 7 (sweep 660000 [(7, prepared0)])).1 = .ok prepared0 := by
  refine ⟨by norm_num [prepared0], ?_, ?_⟩ <;> decide

/-- C7 (corrected): the sweeper removes exactly the prepared entries whose
age is at least `GAME_EXPIRY_TIME` (20 minutes); `initialize` on a uuid
absent from the pool returns `InvalidToken`; and a quiz prepared at `t₀`
is gone from the pool swept at `t₀ + 21 min`, after which `initialize`
returns `InvalidToken`. -/
theorem sweeper_removes_twenty_minute_old_entries
    (now : ℕ) (l : PreparedPool) (e : ℕ × PreparingGame) (uuid : ℕ)
    (habs : ∀ x ∈ l, x.1 ≠ uuid) :
    (e ∈ sweep now l ↔ e ∈ l ∧ now - e.2.created < GAME_EXPIRY_TIME)
  ∧ (Games.initialize_prepared uuid l).1 = .error .InvalidToken
  ∧ (∀ t0 u cfg, sweep (t0 + 1260000) [(u, ⟨cfg, t0⟩)] = []
      ∧ (Games.initialize_prepared u (sweep (t0 + 1260000) [(u, ⟨cfg, t0⟩)])).1
          = .error .InvalidToken) := by
  refine ⟨?_, ?_, ?_⟩
  · simp [sweep, List.mem_filter]
  · have hfind : l.find? (fun e => e.1 = uuid) = none := by
      rw [List.find?_eq_none]
      intro x hx
      simpa using habs x hx
    simp [Games.initialize_prepared, take_prepare, hfind]
  · intro t0 u cfg
    have hsw : sweep (t0 + 1260000) [(u, ⟨cfg, t0⟩)] = [] := by
      simp only [sweep, List.filter, GAME_EXPIRY_TIME]
      norm_num
    exact ⟨hsw, by rw [hsw]; rfl⟩

/-- Witness for the corrected C7: the membership characterisation at a
concrete pool, `initialize` on the empty pool, and the 21-minute scenario
at `t₀ = 0`. -/
theorem sweeper_removes_twenty_minute_old_entries_witness :
    ((7, prepared0) ∈ sweep 660000 [(7, prepared0)]
      ↔ (7, prepared0) ∈ [(7, prepared0)] ∧ 660000 - prepared0.created < GAME_EXPIRY_TIME)
  ∧ (Games.initialize_prepared 3 []).1 = .error .InvalidToken
  ∧ (∀ t0 u cfg, sweep (t0 + 1260000) [(u, ⟨cfg, t0⟩)] = []
      ∧ (Games.initialize_prepared u (sweep (t0 + 1260000) [(u, ⟨cfg, t0⟩)])).1
          = .error .InvalidToken) :=
  sweeper_removes_twenty_minute_old_entries 660000 [(7, prepared0)] (7, prepared0) 3
    (by decide)

/-! Claim C5. -/

/-- Setting a ready flag never changes the game state. -/
theorem set_ready_flag_state (id : SessionId) (g : Game) :
    (g.set_ready_flag id).state = g.state := by
  unfold Game.set_ready_flag
  split <;> rfl

/-- Advancing from `AwaitingReady` lands in `PreQuestion`. -/
theorem next_state_awaiting_ready (now : ℕ) (g : Game) (h : g.state = .AwaitingReady) :
    (g.next_state now).1.state = .PreQuestion := by
  obtain ⟨tok, host, players, config, state, qi, th, st⟩ := g
  simp only [Game.state] at h
  subst h
  simp [Game.next_state, Game.set_state, Game.timed_next_state]

/-- C5 (confirmed): a `ready` call in a state other than `AwaitingReady`
never changes the state; in `AwaitingReady` the state either moves to
`PreQuestion` or stays `AwaitingReady`, and it moves to `PreQuestion`
exactly when, after recording the caller's ready flag, the host is ready
and every player is ready. -/
theorem ready_reaches_prequestion_iff_quorum (now : ℕ) (id : SessionId) (g : Game) :
    (g.state ≠ .AwaitingReady → (Game.ready now id g).1.state = g.state)
  ∧ (g.state = .AwaitingReady →
      ((Game.ready now id g).1.state = .PreQuestion
        ∨ (Game.ready now id g).1.state = .AwaitingReady)
      ∧ ((Game.ready now id g).1.state = .PreQuestion ↔
          (g.set_ready_flag id).host.ready = true
            ∧ ∀ p ∈ (g.set_ready_flag id).players, p.ready = true)) := by
  have hstate := set_ready_flag_state id g
  unfold Game.ready Game.update_ready
  constructor
  · intro hne
    rw [if_pos (by rw [hstate]; exact hne)]
    exact hstate
  · intro heq
    rw [if_neg (by rw [hstate, heq]; simp)]
    by_cases hall :
        ((g.set_ready_flag id).players.all (fun p => p.ready)
          && (g.set_ready_flag id).host.ready) = true
    · rw [hall]
      simp only [Bool.not_true, Bool.false_eq_true, if_false, reduceIte]
      have hpq : ((g.set_ready_flag id).next_state now).1.state = .PreQuestion :=
        next_state_awaiting_ready now _ (by rw [hstate]; exact heq)
      refine ⟨Or.inl hpq, iff_of_true hpq ?_⟩
      rw [Bool.and_eq_true, List.all_eq_true] at hall
      exact ⟨hall.2, fun p hp => hall.1 p hp⟩
    · rw [Bool.not_eq_true] at hall
      rw [hall]
      simp only [Bool.not_false, if_true, reduceIte]
      refine ⟨Or.inr (by rw [hstate, heq]), ?_⟩
      constructor
      · intro hcon
        rw [hstate, heq] at hcon
        cases hcon
      · intro hq
        exfalso
        have hc : ((g.set_ready_flag id).players.all (fun p => p.ready)
            && (g.set_ready_flag id).host.ready) = true := by
          rw [Bool.and_eq_true, List.all_eq_true]
          exact ⟨fun p hpp => hq.2 p hpp, hq.1⟩
        rw [hall] at hc
        cases hc

/-- The fresh game over `cfg1`, forced into `AwaitingReady`. -/
def gAwaitingReady : Game := { gLobby with state := .AwaitingReady }

/-- Witness for C5: with no players and the host (id 0) the caller, the
ready call reaches `PreQuestion`; in the lobby a ready call leaves the
state at `Lobby`. -/
theorem ready_reaches_prequestion_iff_quorum_witness :
    (Game.ready 0 0 gAwaitingReady).1.state = .PreQuestion
  ∧ (Game.ready 0 0 gLobby).1.state = gLobby.state :=
  ⟨((ready_reaches_prequestion_iff_quorum 0 0 gAwaitingReady).2 rfl).2.mpr
      ⟨by decide, by decide⟩,
    (ready_reaches_prequestion_iff_quorum 0 0 gLobby).1 (by decide)⟩

/-! Claim C1.  The source computes the base score in `f32` and truncates
the product with an `as u32` cast; the claim's formula rounds.  The two
agree at the claim's concrete example (the `f32` product there is exactly
810) but differ whenever the product has fractional part at least one
half. -/

/-- The base-score formula exactly as the claim states it, over exact
rationals: `minScore + round((maxScore − minScore) · timePct)` with
`timePct = max(0, 1 − elapsedMs / answerTime)`, plus the bonus exactly
when `elapsedMs ≤ bonusScoreTime`. -/
def claimBaseRound (sc : Scoring) (answerTime bonusT elapsed : ℕ) : ℤ :=
  let timePct : ℚ := max 0 (1 - (elapsed : ℚ) / (answerTime : ℚ))
  let base : ℤ := sc.min_score + round (((sc.max_score : ℚ) - sc.min_score) * timePct)
  if elapsed ≤ bonusT then base + sc.bonus_score else base

/-- A Single question with one correct answer, `minScore 100`,
`maxScore 103`, no bonus, `answerTime` 2 ms. -/
def qRound : Question := ⟨.Single [⟨[65], true⟩], [81], 2, 0, ⟨100, 103, 0⟩⟩

/-- C1 (counterexample): a correct Single answer at 1 ms on `qRound` is
scored `Correct 101` — the `f32` product `3 · 0.5 = 1.5` is truncated to 1
— while the claim's formula gives `100 + round(1.5) = 102`. -/
theorem scoring_truncates_product :
    mark_impl ⟨some ⟨1, .Single 0⟩, none⟩ qRound = .Correct 101
  ∧ claimBaseRound qRound.scoring qRound.answer_time qRound.bonus_score_time 1 = 102 := by
  constructor
  · decide
  · norm_num [claimBaseRound, qRound, round_eq]

/-- The amended C1 base formula: `timePct = 1 − elapsedMs/answerTime` and
the product `(maxScore − minScore) · timePct` are computed in binary32;
the product is cast `as u32` — truncated toward zero and saturating, so a
negative percentage clamps the term to 0 — rather than rounded; the
additions and the subtraction `maxScore − minScore` are wrapping `u32`
operations; the bonus is added exactly when `elapsedMs ≤ bonusScoreTime`. -/
def amendedBase (sc : Scoring) (answerTime bonusT elapsed_ms : ℕ) : ℕ :=
  let timePct :=
    F32.sub (.fin 1) (F32.div (F32.ofNat elapsed_ms) (F32.ofNat answerTime))
  let base :=
    u32add sc.min_score
      ((F32.mul (F32.ofNat (u32sub sc.max_score sc.min_score)) timePct).toU32)
  if elapsed_ms ≤ bonusT then u32add base sc.bonus_score else base

/-- A `Correct` verdict of `mark_single` always carries the base score. -/
theorem mark_single_correct_value {a : ℕ} {ans : List AnswerValue} {B v : ℕ}
    (h : mark_single a ans B = .Correct v) : B = v := by
  unfold mark_single at h
  dsimp only at h
  split at h
  · cases h; rfl
  · cases h

/-- A `Correct` verdict of `mark_multiple` always carries the base score. -/
theorem mark_multiple_correct_value {idx : List ℕ} {ans : List AnswerValue} {B v : ℕ}
    (h : mark_multiple idx ans B = .Correct v) : B = v := by
  unfold mark_multiple at h
  dsimp only at h
  split at h
  · cases h
  · split at h
    · cases h
    · split at h
      · cases h; rfl
      · cases h

/-- A `Correct` verdict of `mark_bool` always carries the base score. -/
theorem mark_bool_correct_value {a b : Bool} {B v : ℕ}
    (h : mark_bool a b B = .Correct v) : B = v := by
  unfold mark_bool at h
  split at h
  · cases h; rfl
  · cases h

/-- A `Correct` verdict of `mark_typer` always carries the base score. -/
theorem mark_typer_correct_value {a : RStr} {ans : List RStr} {ic : Bool} {B v : ℕ}
    (h : mark_typer a ans ic B = .Correct v) : B = v := by
  unfold mark_typer at h
  dsimp only at h
  cases hc : (if ic = true then ans.any fun v => eq_ignore_ascii_case (trim a) v
      else ans.any fun v => decide (trim a = v))
  · rw [hc] at h
    simp only [Bool.false_eq_true, if_false, reduceIte] at h
    cases h
  · rw [hc] at h
    simp only [if_true, reduceIte] at h
    cases h
    rfl

/-- The question of the claim's concrete example: a Single question with
answers `A (wrong)`, `B (correct)`, `minScore 100`, `maxScore 1000`,
`bonusScore 200`, `bonusScoreTime 2000`, `answerTime 10000`. -/
def qExample : Question :=
  ⟨.Single [⟨[65], false⟩, ⟨[66], true⟩], [81], 10000, 2000, ⟨100, 1000, 200⟩⟩

/-- C1 (corrected): every marked answer scored `Correct v` has
`v = amendedBase …` — the base from the truncated (not rounded) `f32`
product, with the bonus added exactly when `elapsedMs ≤ bonusScoreTime` —
and the claim's concrete example still yields `Correct 1110`, because its
`f32` product is the exact integer 810. -/
theorem scoring_base_is_amended (q : Question) (ad : AnswerData) (st : Option Score)
    (v : ℕ) (h : mark_impl ⟨some ad, st⟩ q = .Correct v) :
    v = amendedBase q.scoring q.answer_time q.bonus_score_time (ad.elapsed % 2 ^ 32)
  ∧ mark_impl ⟨some ⟨1000, .Single 1⟩, none⟩ qExample = .Correct 1110 := by
  refine ⟨?_, by decide⟩
  obtain ⟨e, a⟩ := ad
  unfold mark_impl at h
  dsimp only at h
  cases a <;> cases hq : q.data <;> rw [hq] at h <;> dsimp only at h
  case Single.Single => exact (mark_single_correct_value h).symm
  case Multiple.Multiple => exact (mark_multiple_correct_value h).symm
  case TrueFalse.TrueFalse => exact (mark_bool_correct_value h).symm
  case Typer.Typer => exact (mark_typer_correct_value h).symm
  all_goals cases h

/-- Witness for the corrected C1: the general part applied to the concrete
example itself (`v = 1110`). -/
theorem scoring_base_is_amended_witness :
    (1110 : ℕ) = amendedBase qExample.scoring qExample.answer_time
        qExample.bonus_score_time (1000 % 2 ^ 32)
  ∧ mark_impl ⟨some ⟨1000, .Single 1⟩, none⟩ qExample = .Correct 1110 :=
  scoring_base_is_amended qExample ⟨1000, .Single 1⟩ none 1110 (by decide)

/-! Claim C2.  The source counts the chosen indices that denote a correct
answer with multiplicity (`filterMap`/`filter` over the chosen list), not
as a set intersection, and computes the `Partial` value in `f32`. -/

/-- C2 (counterexample): two concrete divergences from the claim.  With
both answers correct, the duplicated choice `[0, 0]` has `countChosen = 2 =
countExpected` and the code counts `countCorrect = 2` with multiplicity,
scoring `Correct`; the claim's set intersection `{0} ∩ {0, 1}` has size 1,
which demands `Partial`.  And with base `4294967295` and ratio `1/5` the
code's `f32` value is `858993472`, while the claim's exact
`round(base · 1/5)` is the integer `858993459`. -/
theorem mark_multiple_counterexample :
    mark_multiple [0, 0] [⟨[65], true⟩, ⟨[66], true⟩] 500 = .Correct 500
  ∧ (([0, 0] : List ℕ).toFinset ∩ ([0, 1] : List ℕ).toFinset).card = 1
  ∧ mark_multiple [0] (List.replicate 5 ⟨[65], true⟩) 4294967295
      = .Partial 858993472 1 5
  ∧ (4294967295 : ℚ) * (1 / 5) = 858993459 := by
  refine ⟨by decide, by decide, by decide, by norm_num⟩

/-- Modelled from the amended claim C2: `countCorrect` counts the entries
of the chosen index list (with multiplicity) that denote a correct answer;
the verdicts are as the claim states them, with the `Partial` value
`base · countCorrect/countExpected` computed in binary32 and rounded half
away from zero (`f32::round`), then cast `as u32`. -/
def specMultipleAmended (chosen : List ℕ) (answers : List AnswerValue) (base : ℕ) : Score :=
  let countChosen := chosen.length
  let countExpected := (answers.filter (fun v => v.correct)).length
  let countCorrect :=
    chosen.countP (fun i => ((answers.get? i).map (fun v => v.correct)).getD false)
  if countChosen < 1 ∨ countChosen > countExpected ∨ countCorrect < 1 then .Incorrect
  else if countCorrect = countExpected then .Correct base
  else
    .Partial ((F32.mul (F32.ofNat base)
        (F32.div (F32.ofNat countCorrect) (F32.ofNat countExpected))).roundHalfAway.toU32)
      countCorrect countExpected

/-- Counting the correct answers reached through `filterMap get?` equals a
direct count over the index list. -/
theorem filterMap_filter_length_eq_countP (l : List ℕ) (ans : List AnswerValue) :
    ((l.filterMap ans.get?).filter (fun v => v.correct)).length
      = l.countP (fun i => ((ans.get? i).map (fun v => v.correct)).getD false) := by
  induction l with
  | nil => rfl
  | cons a t ih =>
    rw [List.filterMap_cons, List.countP_cons]
    cases hga : ans.get? a with
    | none => simp [hga, ih]
    | some b => cases hb : b.correct <;> simp [hga, hb, ih, List.filter_cons]

/-- C2 (corrected): `mark_multiple` computes exactly the amended
specification, for every chosen list, answer list and base score (the
bounds keep the source's `usize as u32` casts of the two counts exact). -/
theorem mark_multiple_matches_amended (chosen : List ℕ) (answers : List AnswerValue)
    (base : ℕ) (hC : chosen.length < 2 ^ 32) (hA : answers.length < 2 ^ 32) :
    mark_multiple chosen answers base = specMultipleAmended chosen answers base := by
  unfold mark_multiple specMultipleAmended
  dsimp only
  rw [← filterMap_filter_length_eq_countP]
  have hccle : ((chosen.filterMap answers.get?).filter (fun v => v.correct)).length
      ≤ chosen.length :=
    le_trans (List.length_filter_le _ _) (List.length_filterMap_le _ _)
  have hcele : (answers.filter (fun v => v.correct)).length ≤ answers.length :=
    List.length_filter_le _ _
  have hccm : ((chosen.filterMap answers.get?).filter (fun v => v.correct)).length % 2 ^ 32
      = ((chosen.filterMap answers.get?).filter (fun v => v.correct)).length :=
    Nat.mod_eq_of_lt (lt_of_le_of_lt hccle hC)
  have hcem : (answers.filter (fun v => v.correct)).length % 2 ^ 32
      = (answers.filter (fun v => v.correct)).length :=
    Nat.mod_eq_of_lt (lt_of_le_of_lt hcele hA)
  by_cases h1 : chosen.length < 1
    ∨ chosen.length > (answers.filter (fun v => v.correct)).length
  · rw [if_pos h1, if_pos (Or.elim h1 (fun h => Or.inl h) (fun h => Or.inr (Or.inl h)))]
  · rw [if_neg h1]
    by_cases h2 : ((chosen.filterMap answers.get?).filter (fun v => v.correct)).length < 1
    · rw [if_pos h2, if_pos (Or.inr (Or.inr h2))]
    · have hno : ¬(chosen.length < 1
          ∨ chosen.length > (answers.filter (fun v => v.correct)).length
          ∨ ((chosen.filterMap answers.get?).filter (fun v => v.correct)).length < 1) := by
        tauto
      rw [if_neg h2, if_neg hno]
      by_cases h3 : ((chosen.filterMap answers.get?).filter (fun v => v.correct)).length
          = (answers.filter (fun v => v.correct)).length
      · rw [if_pos h3, if_pos h3]
      · rw [if_neg h3, if_neg h3, hccm, hcem]

/-- Witness for the corrected C2: the spec's own partial-credit scenario
(correct indices {0, 2} of four, chosen {0, 1}, base 500), where both sides
give `Partial 250 1 2`. -/
theorem mark_multiple_matches_amended_witness :
    mark_multiple [0, 1] [⟨[65], true⟩, ⟨[66], false⟩, ⟨[67], true⟩, ⟨[68], false⟩] 500
      = specMultipleAmended [0, 1]
          [⟨[65], true⟩, ⟨[66], false⟩, ⟨[67], true⟩, ⟨[68], false⟩] 500 :=
  mark_multiple_matches_amended _ _ _ (by decide) (by decide)

/-! Claim C6: the question-index invariant. -/

/-- The invariant of claim C6: the question index addresses a question of
the (immutable) configuration. -/
def question_index_ok (g : Game) : Prop :=
  g.question_index < g.config.questions.length

/-- Advancing the state machine preserves the configuration and keeps the
question index in range (the `Marked` branch only increments it after
checking `question_index + 1 < questions.length`; `Finished` resets it
to 0). -/
theorem next_state_question_index (now : ℕ) (g : Game)
    (h1 : 0 < g.config.questions.length) (h2 : question_index_ok g) :
    (g.next_state now).1.config = g.config ∧ question_index_ok (g.next_state now).1 := by
  unfold question_index_ok at h2 ⊢
  obtain ⟨tok, host, players, config, state, qi, th, st⟩ := g
  simp only at h1 h2
  cases state
  case Lobby =>
    exact ⟨rfl, h2⟩
  case Starting =>
    exact ⟨rfl, h2⟩
  case AwaitingReady =>
    exact ⟨rfl, h2⟩
  case PreQuestion =>
    exact ⟨rfl, h2⟩
  case AwaitingAnswers =>
    exact ⟨rfl, h2⟩
  case Marked =>
    by_cases hq : qi + 1 ≥ config.questions.length
    · simp only [Game.next_state, hq, if_pos, reduceIte]
      exact ⟨rfl, h2⟩
    · simp only [Game.next_state, hq, if_neg, reduceIte]
      exact ⟨rfl, by simp only [Game.question, Game.set_state]; omega⟩
  case Finished =>
    exact ⟨rfl, h1⟩
  case Stopped =>
    exact ⟨rfl, h2⟩

/-- `update_ready` preserves the configuration and the index invariant. -/
theorem update_ready_question_index (now : ℕ) (g : Game)
    (h1 : 0 < g.config.questions.length) (h2 : question_index_ok g) :
    (g.update_ready now).1.config = g.config
      ∧ question_index_ok (g.update_ready now).1 := by
  unfold Game.update_ready
  split
  · exact ⟨rfl, h2⟩
  · dsimp only
    split
    · exact ⟨rfl, h2⟩
    · exact next_state_question_index now g h1 h2

/-- Stopping a game never changes the question index or the configuration. -/
theorem stop_question_index (g : Game) (h2 : question_index_ok g) :
    question_index_ok (g.stop).1 := by
  unfold Game.stop
  split
  · exact h2
  · exact h2

/-- C6 (confirmed): given a configuration with at least one question,
every game operation — `join` (both iterations), `ready`, `answer`,
`hostAction` (`Next` and `Reset`), `removePlayer`, and the timer-driven
`next_state` — preserves `0 ≤ questionIndex < questions.length`.  The
bound is proved unconditionally on the state, which subsumes the claim's
conditioning on the states from `AwaitingReady` to `Finished`. -/
theorem ops_preserve_question_index (g : Game) (now : ℕ) (id tid : SessionId)
    (name : RStr) (censor : RStr → FilterLevel → Bool) (a : Answer)
    (act : HostAction) (reason : RemoveReason)
    (h1 : 0 < g.config.questions.length) (h2 : question_index_ok g) :
    question_index_ok (g.join censor id name).1
  ∧ question_index_ok (g.try_join censor id name).1
  ∧ question_index_ok (Game.ready now id g).1
  ∧ question_index_ok (g.answer now id a).1
  ∧ question_index_ok (g.host_action now id act).1
  ∧ question_index_ok (Game.remove_player now id tid reason g).1
  ∧ question_index_ok (g.next_state now).1 := by
  have hready : question_index_ok (Game.ready now id g).1 := by
    have hflag : (g.set_ready_flag id).config = g.config
        ∧ (g.set_ready_flag id).question_index = g.question_index := by
      unfold Game.set_ready_flag
      split <;> exact ⟨rfl, rfl⟩
    have h1f : 0 < (g.set_ready_flag id).config.questions.length := by
      rw [hflag.1]; exact h1
    have h2f : question_index_ok (g.set_ready_flag id) := by
      unfold question_index_ok
      rw [hflag.1, hflag.2]; exact h2
    exact (update_ready_question_index now _ h1f h2f).2
  refine ⟨?_, ?_, hready, ?_, ?_, ?_, (next_state_question_index now g h1 h2).2⟩
  · unfold Game.join
    split
    · exact h2
    · dsimp only
      split
      · exact h2
      · split
        · exact h2
        · split
          · exact h2
          · split
            · exact h2
            · exact h2
  · unfold Game.try_join
    dsimp only
    split
    · exact h2
    · split
      · exact h2
      · split
        · exact h2
        · split
          · exact h2
          · exact h2
  · unfold Game.answer
    dsimp only
    split
    · exact h2
    · split
      · exact h2
      · split
        · exact h2
        · split
          · exact (next_state_question_index now _ (by exact h1) (by exact h2)).2
          · exact h2
  · unfold Game.host_action
    split
    · exact h2
    · split
      · exact h1
      · exact (next_state_question_index now _ (by exact h1) (by exact h2)).2
  · unfold Game.remove_player
    split
    · exact h2
    · split
      · exact stop_question_index g h2
      · split
        · exact h2
        · rename_i index heq
          dsimp only
          obtain ⟨hcfg, hqi⟩ := update_ready_question_index now
            { g with players := g.players.eraseIdx index } h1 h2
          rcases hpr : Game.update_ready now { g with players := g.players.eraseIdx index }
            with ⟨g2, s2⟩
          rw [hpr] at hcfg hqi
          dsimp only at hcfg hqi ⊢
          split
          · show 0 < g2.config.questions.length
            rw [hcfg]
            exact h1
          · exact hqi

/-- Witness for C6: the invariant after each operation on the fresh
one-question game. -/
theorem ops_preserve_question_index_witness :
    question_index_ok (gLobby.join noCensor 1 [98]).1
  ∧ question_index_ok (gLobby.try_join noCensor 1 [98]).1
  ∧ question_index_ok (Game.ready 0 1 gLobby).1
  ∧ question_index_ok (gLobby.answer 0 1 (.TrueFalse true)).1
  ∧ question_index_ok (gLobby.host_action 0 1 .Next).1
  ∧ question_index_ok (Game.remove_player 0 1 0 .Disconnected gLobby).1
  ∧ question_index_ok (gLobby.next_state 0).1 :=
  ops_preserve_question_index gLobby 0 1 0 [98] noCensor (.TrueFalse true) .Next
    .Disconnected (by decide) (by unfold question_index_ok; decide)

/-! Claim C10. -/

/-- An empty answer slot is marked `Incorrect`. -/
theorem mark_impl_none (pa : PlayerAnswer) (q : Question) (h : pa.data = none) :
    mark_impl pa q = .Incorrect := by
  unfold mark_impl
  rw [h]

/-- `mark_player` never changes the player's id. -/
theorem mark_player_id (q : Question) (qi : ℕ) (p : PlayerSession) :
    (mark_player q qi p).1.id = p.id := rfl

/-- Marking a player with an empty slot for question `qi` yields the
`Incorrect` score and leaves the total unchanged (up to the `u32` wrap,
excluded by the bound). -/
theorem mark_player_none (q : Question) (qi : ℕ) (p : PlayerSession)
    (h : (p.answers.getD qi default).data = none) (hs : p.score < 2 ^ 32) :
    (mark_player q qi p).2 = .Incorrect ∧ (mark_player q qi p).1.score = p.score := by
  unfold mark_player PlayerAnswer.mark
  dsimp only
  rw [mark_impl_none _ _ h]
  refine ⟨rfl, ?_⟩
  show (p.score + 0) % 2 ^ 32 = p.score
  rw [Nat.add_zero]
  exact Nat.mod_eq_of_lt hs

/-- C10 (confirmed): during `mark_answers`, a player with no recorded
answer for the current question is scored `Incorrect`: the player's total
is unchanged, the player is sent a `Score Incorrect` event, and the
`Scores` broadcast — delivered to every player and to the host — carries
the player's id with the unchanged total at the player's position. -/
theorem unanswered_player_scored_incorrect (g : Game) (i : ℕ)
    (hi : i < g.players.length)
    (hnone : ((g.players.getD i default).answers.getD g.question_index default).data = none)
    (hscore : (g.players.getD i default).score < 2 ^ 32) :
    ((g.mark_answers.1.players.getD i default).id = (g.players.getD i default).id
      ∧ (g.mark_answers.1.players.getD i default).score = (g.players.getD i default).score)
  ∧ ((g.players.getD i default).id, ServerEvent.Score .Incorrect) ∈ g.mark_answers.2
  ∧ ∃ l, (∀ p ∈ g.mark_answers.1.players, (p.id, ServerEvent.Scores l) ∈ g.mark_answers.2)
      ∧ (g.host.id, ServerEvent.Scores l) ∈ g.mark_answers.2
      ∧ l.getD i (0, 0) = ((g.players.getD i default).id, (g.players.getD i default).score) := by
  have hget : g.players[i]? = some (g.players.getD i default) := by
    cases hx : g.players[i]? with
    | none => exact absurd (List.getElem?_eq_none_iff.mp hx) (by omega)
    | some pl => rw [List.getD_eq_getElem?_getD, hx]; rfl
  set q := g.config.questions.getD g.question_index default with hq
  set p := g.players.getD i default with hp
  obtain ⟨hmis, hmsc⟩ := mark_player_none q g.question_index p hnone hscore
  have hresget : (g.players.map (mark_player q g.question_index))[i]?
      = some (mark_player q g.question_index p) := by
    rw [List.getElem?_map, hget]
    rfl
  have hresmem : mark_player q g.question_index p
      ∈ g.players.map (mark_player q g.question_index) :=
    List.get?_mem (by rw [List.get?_eq_getElem?]; exact hresget)
  have hplget : ((g.players.map (mark_player q g.question_index)).map
      (fun (r : PlayerSession × Score) => r.1))[i]?
      = some (mark_player q g.question_index p).1 := by
    rw [List.getElem?_map, hresget]
    rfl
  refine ⟨⟨?_, ?_⟩, ?_, ?_⟩
  · show (((g.players.map (mark_player q g.question_index)).map
        (fun (r : PlayerSession × Score) => r.1)).getD i default).id = p.id
    rw [List.getD_eq_getElem?_getD, hplget, Option.getD_some, mark_player_id]
  · show (((g.players.map (mark_player q g.question_index)).map
        (fun (r : PlayerSession × Score) => r.1)).getD i default).score = p.score
    rw [List.getD_eq_getElem?_getD, hplget, Option.getD_some, hmsc]
  · have hx : ((mark_player q g.question_index p).1.id,
        ServerEvent.Score (mark_player q g.question_index p).2)
        ∈ (g.players.map (mark_player q g.question_index)).map
            (fun r => (r.1.id, ServerEvent.Score r.2)) :=
      List.mem_map_of_mem _ hresmem
    rw [mark_player_id, hmis] at hx
    show _ ∈ g.mark_answers.2
    unfold Game.mark_answers Game.send_all Game.set_state
    dsimp only
    exact List.mem_append_left _ (List.mem_append_left _ hx)
  · refine ⟨((g.players.map (mark_player q g.question_index)).map
        (fun (r : PlayerSession × Score) => (r.1.id, r.1.score))), ?_, ?_, ?_⟩
    · intro pl hpl
      have hpl2 : pl ∈ (g.players.map (mark_player q g.question_index)).map
          (fun (r : PlayerSession × Score) => r.1) := hpl
      have hx := List.mem_map_of_mem
        (fun (pl : PlayerSession) => (pl.id, ServerEvent.Scores
          ((g.players.map (mark_player q g.question_index)).map
            (fun (r : PlayerSession × Score) => (r.1.id, r.1.score))))) hpl2
      show _ ∈ g.mark_answers.2
      unfold Game.mark_answers Game.send_all Game.set_state
      dsimp only
      exact List.mem_append_left _ (List.mem_append_right _ (List.mem_append_left _ hx))
    · show _ ∈ g.mark_answers.2
      unfold Game.mark_answers Game.send_all Game.set_state
      dsimp only
      exact List.mem_append_left _ (List.mem_append_right _
        (List.mem_append_right _ (List.mem_singleton_self _)))
    · show (((g.players.map (mark_player q g.question_index)).map
          (fun (r : PlayerSession × Score) => (r.1.id, r.1.score))).getD i (0, 0))
          = (p.id, p.score)
      rw [List.getD_eq_getElem?_getD, List.getElem?_map, hresget]
      show ((mark_player q g.question_index p).1.id,
        (mark_player q g.question_index p).1.score) = (p.id, p.score)
      rw [mark_player_id, hmsc]

/-- A game over `cfg1` in `AwaitingAnswers` with one player (id 1) whose
answer slot for the single question is empty. -/
def gOnePlayer : Game :=
  { gLobby with
    state := .AwaitingAnswers,
    players := [⟨1, false, [98], [{}], 0⟩] }

/-- Witness for C10: marking `gOnePlayer` scores its unanswered player
`Incorrect` with unchanged total. -/
theorem unanswered_player_scored_incorrect_witness :
    ((gOnePlayer.mark_answers.1.players.getD 0 default).id
        = (gOnePlayer.players.getD 0 default).id
      ∧ (gOnePlayer.mark_answers.1.players.getD 0 default).score
        = (gOnePlayer.players.getD 0 default).score)
  ∧ ((gOnePlayer.players.getD 0 default).id, ServerEvent.Score .Incorrect)
      ∈ gOnePlayer.mark_answers.2
  ∧ ∃ l, (∀ p ∈ gOnePlayer.mark_answers.1.players,
        (p.id, ServerEvent.Scores l) ∈ gOnePlayer.mark_answers.2)
      ∧ (gOnePlayer.host.id, ServerEvent.Scores l) ∈ gOnePlayer.mark_answers.2
      ∧ l.getD 0 (0, 0) = ((gOnePlayer.players.getD 0 default).id,
          (gOnePlayer.players.getD 0 default).score) :=
  unanswered_player_scored_incorrect gOnePlayer 0 (by decide) (by decide) (by decide)

end Quizler
